import Mathlib

/-!
Shallow embedding of the Redis-backed token-bucket rate limiter
(`package limiter`, file `limiter.go`, plus constructor `NewRedisTokenBucket`).

Modelling decisions:
* Go `float64` values (capacity, refillRate, token counts) are modelled as ℚ,
  idealized exact arithmetic; `int64` unix-second timestamps as ℤ.
* The Redis store (an external collaborator, spec §2/§4.1: a key-value service
  with `get`, `set-with-expiry` and atomic batch execution) is modelled as a
  map from string keys to optional entries carrying a value and an optional
  absolute expiry time, together with two availability flags: `readFail`
  (every `GET` returns an error, as for an unreachable store) and `execFail`
  (the `TxPipeline.Exec` call returns an error).  Redis answers a `GET` of an
  expired key exactly like a missing key.
* A stored value is either a numeric value written by the limiter itself
  (`RVal.num` / `RVal.int`: go-redis serializes float64/int64 losslessly, so
  reading back a value the limiter wrote yields the same number), or an
  arbitrary foreign string (`RVal.str`) which the typed getters of go-redis
  (`.Float64()`, `.Int64()`) must parse; parsing is modelled after
  `strconv.ParseFloat` / `strconv.ParseInt` on decimal forms (optional sign,
  digits, optional fraction, optional exponent); non-numeric strings fail to
  parse, which go-redis surfaces as a conversion error.
* `time.Now().Unix()` is passed in as the explicit parameter `now`; the
  `ttl : time.Duration` is modelled in whole seconds, so `Set(key, v, ttl)`
  gives the key the absolute expiry `now + ttl`.
-/

namespace Limiter

/-- Numeric value of a run of decimal digit characters. -/
def digitsToNat (cs : List Char) : ℕ :=
  cs.foldl (fun acc c => acc * 10 + (c.toNat - 48)) 0

/-- Consume an optional leading sign; returns (isNegative, rest). -/
def parseSign : List Char → Bool × List Char
  | '-' :: rest => (true, rest)
  | '+' :: rest => (false, rest)
  | cs => (false, cs)

/-- Exponent part of a float literal, applied to an already-parsed mantissa. -/
def applyExp (mant : ℚ) (cs : List Char) : Option ℚ :=
  let (eneg, r) := parseSign cs
  if r.isEmpty || !(r.all Char.isDigit) then none
  else
    let e := digitsToNat r
    some (if eneg then mant / (10 : ℚ) ^ e else mant * (10 : ℚ) ^ e)

/-- Model of `strconv.ParseFloat` (as used by go-redis `.Float64()`) on
decimal forms: optional sign, digits with optional fractional part and
optional exponent.  Any other string (e.g. non-numeric garbage) yields
`none`, which go-redis reports as a conversion error. -/
def parseGoFloat (s : String) : Option ℚ :=
  let (neg, cs) := parseSign s.toList
  let (ipart, rest) := cs.span Char.isDigit
  let (fpart, rest2) :=
    match rest with
    | '.' :: r => r.span Char.isDigit
    | _ => (([] : List Char), rest)
  if ipart.isEmpty && fpart.isEmpty then none
  else
    let mant : ℚ := (digitsToNat (ipart ++ fpart) : ℚ) / (10 : ℚ) ^ fpart.length
    let mant := if neg then -mant else mant
    match rest2 with
    | [] => some mant
    | 'e' :: r => applyExp mant r
    | 'E' :: r => applyExp mant r
    | _ => none

/-- Model of `strconv.ParseInt` base 10 (as used by go-redis `.Int64()`):
optional sign followed by decimal digits. -/
def parseGoInt (s : String) : Option ℤ :=
  let (neg, cs) := parseSign s.toList
  if cs.isEmpty || !(cs.all Char.isDigit) then none
  else some (if neg then -(digitsToNat cs : ℤ) else (digitsToNat cs : ℤ))

/-- A value held by the store under one key. -/
inductive RVal
  | num (q : ℚ)    -- a float64 written by the limiter (lossless round-trip)
  | int (n : ℤ)    -- an int64 written by the limiter (lossless round-trip)
  | str (s : String)  -- a foreign string; typed reads must parse it
deriving DecidableEq

/-- One store entry: a value plus an optional absolute expiry instant. -/
structure Entry where
  val : RVal
  expiresAt : Option ℤ
deriving DecidableEq

/-- Redis drops a key once its expiry instant is reached. -/
def Entry.isLive (e : Entry) (now : ℤ) : Bool :=
  match e.expiresAt with
  | none => true
  | some t => decide (now < t)

/-- The key-value store together with its availability towards this client:
`readFail` makes every `GET` fail (store unreachable for reads), `execFail`
makes the transactional pipeline `Exec` fail. -/
structure Store where
  data : String → Option Entry
  readFail : Bool
  execFail : Bool

/-- A store with no entries and a healthy connection. -/
def Store.fresh : Store :=
  { data := fun _ => none, readFail := false, execFail := false }

/-- Raw `GET key`: `none` on store read failure, missing key, or expired key. -/
def Store.getRaw (st : Store) (key : String) (now : ℤ) : Option RVal :=
  if st.readFail then none
  else
    match st.data key with
    | some e => if e.isLive now then some e.val else none
    | none => none

/-- go-redis `.Float64()` conversion of a raw value. -/
def rvalToFloat : RVal → Option ℚ
  | .num q => some q
  | .int n => some (n : ℚ)
  | .str s => parseGoFloat s

/-- go-redis `.Int64()` conversion of a raw value (`strconv.ParseInt`; a
float64 that is not an integer serializes with a fraction and fails). -/
def rvalToInt : RVal → Option ℤ
  | .num q => if q.den = 1 then some q.num else none
  | .int n => some n
  | .str s => parseGoInt s

/-- `client.Get(ctx, key).Float64()`: `none` iff the Go call returns a
non-nil error (read failure, absent/expired key, or unparsable value). -/
def Store.getFloat (st : Store) (key : String) (now : ℤ) : Option ℚ :=
  (st.getRaw key now).bind rvalToFloat

/-- `client.Get(ctx, key).Int64()`: `none` iff the Go call errors. -/
def Store.getInt (st : Store) (key : String) (now : ℤ) : Option ℤ :=
  (st.getRaw key now).bind rvalToInt

/-- The limiter configuration, `RedisTokenBucket` (limiter.go lines 14-19).
The `client` field is the external store, passed separately as `Store`. -/
structure RedisTokenBucket where
  capacity : ℚ      -- max tokens per IP, Go float64
  refillRate : ℚ    -- tokens added per second, Go float64
  ttl : ℤ           -- expiration time for IP entries, in seconds
deriving DecidableEq

/-- `NewRedisTokenBucket` (limiter.go lines 22-29): builds the struct from
the given configuration.  The Go function has no error return and no
validation; this model mirrors that as a total function. -/
def NewRedisTokenBucket (capacity refillRate : ℚ) (ttl : ℤ) : RedisTokenBucket :=
  { capacity := capacity, refillRate := refillRate, ttl := ttl }

/-- `getIPKey` (limiter.go lines 32-34): `fmt.Sprintf("rate_limit:ip:%s", ip)`. -/
def getIPKey (ip : String) : String :=
  "rate_limit:ip:" ++ ip

/-- The key the token count lives under: `redisKey + ":tokens"`. -/
def tokensKey (ip : String) : String :=
  getIPKey ip ++ ":tokens"

/-- The key the timestamp lives under: `redisKey + ":last_updated"`. -/
def lastUpdatedKey (ip : String) : String :=
  getIPKey ip ++ ":last_updated"

/-- limiter.go lines 42-45: read the token count; on any `Get` error
default to `rtb.capacity` (full bucket). -/
def readTokens (rtb : RedisTokenBucket) (st : Store) (ip : String) (now : ℤ) : ℚ :=
  (st.getFloat (tokensKey ip) now).getD rtb.capacity

/-- limiter.go lines 47-50: read the last-updated timestamp; on any `Get`
error default to `now`. -/
def readLastUpdated (st : Store) (ip : String) (now : ℤ) : ℤ :=
  (st.getInt (lastUpdatedKey ip) now).getD now

/-- limiter.go lines 52-54: `elapsed := float64(now - lastUpdated)`;
`newTokens := math.Min(rtb.capacity, tokens+(elapsed*rtb.refillRate))`.
A negative elapsed time (clock moved backward) is not special-cased. -/
def refilled (rtb : RedisTokenBucket) (st : Store) (ip : String) (now : ℤ) : ℚ :=
  min rtb.capacity
    (readTokens rtb st ip now +
      ((now - readLastUpdated st ip now : ℤ) : ℚ) * rtb.refillRate)

/-- `AllowRequest` (limiter.go lines 37-72).  Returns the Go boolean result
together with the store as left behind by the call:
* if `newTokens >= 1` the transactional pipeline sets
  `tokens = newTokens - 1` and `last_updated = now`, both with TTL `rtb.ttl`,
  as one atomic batch; if `Exec` errors (`execFail`) nothing is written and
  the function returns `false`; otherwise it returns `true`;
* if `newTokens < 1` the request is rejected with no write. -/
def AllowRequest (rtb : RedisTokenBucket) (st : Store) (ip : String) (now : ℤ) :
    Bool × Store :=
  if 1 ≤ refilled rtb st ip now then
    if st.execFail then
      (false, st)
    else
      (true,
        { st with
          data := fun k =>
            if k = tokensKey ip then
              some ⟨.num (refilled rtb st ip now - 1), some (now + rtb.ttl)⟩
            else if k = lastUpdatedKey ip then
              some ⟨.int now, some (now + rtb.ttl)⟩
            else st.data k })
  else
    (false, st)

/-- The stores left behind by successive `AllowRequest` calls for one
identifier, all within the same second (`now` fixed), starting from an
identifier never seen before. -/
def callSeq (rtb : RedisTokenBucket) (ip : String) (now : ℤ) : ℕ → Store
  | 0 => Store.fresh
  | n + 1 => (AllowRequest rtb (callSeq rtb ip now n) ip now).2

/-! Concrete sample stores used to instantiate theorems. -/

/-- A healthy empty store whose transactional writes fail. -/
def stWriteFail : Store :=
  { data := fun _ => none, readFail := false, execFail := true }

/-- A store holding a drained bucket for identifier `"a"`:
0 tokens, last updated at time 100. -/
def stDrained : Store :=
  { data := fun k =>
      if k = tokensKey "a" then some ⟨.num 0, none⟩
      else if k = lastUpdatedKey "a" then some ⟨.int 100, none⟩
      else none,
    readFail := false, execFail := false }

/-- A store whose `last_updated` for `"a"` lies in the future (time 110,
observed at time 100): the clock moved backward. -/
def stClockBack : Store :=
  { data := fun k =>
      if k = tokensKey "a" then some ⟨.num 5, none⟩
      else if k = lastUpdatedKey "a" then some ⟨.int 110, none⟩
      else none,
    readFail := false, execFail := false }

/-- A store holding a non-numeric string under the tokens key of `"a"`. -/
def stMalformed : Store :=
  { data := fun k =>
      if k = tokensKey "a" then some ⟨.str "banana", none⟩
      else none,
    readFail := false, execFail := false }

/-! Helper lemmas about `AllowRequest`. -/

/-- The two keys of one identifier differ (their lengths differ). -/
lemma tokensKey_ne_lastUpdatedKey (ip : String) : tokensKey ip ≠ lastUpdatedKey ip := by
  intro h
  have hlen : (tokensKey ip).length = (lastUpdatedKey ip).length :=
    congrArg String.length h
  simp only [tokensKey, lastUpdatedKey, getIPKey, String.length_append,
    show (":tokens" : String).length = 7 from rfl,
    show (":last_updated" : String).length = 13 from rfl] at hlen
  omega

lemma allowRequest_snd_readFail (rtb : RedisTokenBucket) (st : Store) (ip : String) (now : ℤ) :
    ((AllowRequest rtb st ip now).2).readFail = st.readFail := by
  unfold AllowRequest
  split_ifs <;> rfl

lemma allowRequest_snd_execFail (rtb : RedisTokenBucket) (st : Store) (ip : String) (now : ℤ) :
    ((AllowRequest rtb st ip now).2).execFail = st.execFail := by
  unfold AllowRequest
  split_ifs <;> rfl

/-- The Go function returns `true` exactly when at least one token is
available after refill and the transactional write goes through. -/
lemma allowRequest_fst_true_iff (rtb : RedisTokenBucket) (st : Store) (ip : String) (now : ℤ) :
    (AllowRequest rtb st ip now).1 = true ↔
      1 ≤ refilled rtb st ip now ∧ st.execFail = false := by
  by_cases h1 : 1 ≤ refilled rtb st ip now
  · cases hex : st.execFail
    · simp [AllowRequest, h1, hex]
    · simp [AllowRequest, h1, hex]
  · simp [AllowRequest, h1]

lemma allowRequest_of_denied (rtb : RedisTokenBucket) (st : Store) (ip : String) (now : ℤ)
    (h : refilled rtb st ip now < 1) :
    AllowRequest rtb st ip now = (false, st) := by
  simp [AllowRequest, not_le.mpr h]

lemma allowRequest_of_execFail (rtb : RedisTokenBucket) (st : Store) (ip : String) (now : ℤ)
    (h : st.execFail = true) :
    AllowRequest rtb st ip now = (false, st) := by
  by_cases h1 : 1 ≤ refilled rtb st ip now
  · simp [AllowRequest, h1, h]
  · simp [AllowRequest, h1]

lemma allowRequest_data_tokensKey (rtb : RedisTokenBucket) (st : Store) (ip : String) (now : ℤ)
    (h1 : 1 ≤ refilled rtb st ip now) (hex : st.execFail = false) :
    ((AllowRequest rtb st ip now).2).data (tokensKey ip) =
      some ⟨.num (refilled rtb st ip now - 1), some (now + rtb.ttl)⟩ := by
  simp [AllowRequest, h1, hex]

lemma allowRequest_data_lastUpdatedKey (rtb : RedisTokenBucket) (st : Store) (ip : String)
    (now : ℤ) (h1 : 1 ≤ refilled rtb st ip now) (hex : st.execFail = false) :
    ((AllowRequest rtb st ip now).2).data (lastUpdatedKey ip) =
      some ⟨.int now, some (now + rtb.ttl)⟩ := by
  simp [AllowRequest, h1, hex, (tokensKey_ne_lastUpdatedKey ip).symm]

lemma allowRequest_data_other (rtb : RedisTokenBucket) (st : Store) (ip : String) (now : ℤ)
    (k : String) (hk1 : k ≠ tokensKey ip) (hk2 : k ≠ lastUpdatedKey ip) :
    ((AllowRequest rtb st ip now).2).data k = st.data k := by
  unfold AllowRequest
  split_ifs <;> simp [hk1, hk2]

/-- The refill computation reads only the two keys of the identifier. -/
lemma refilled_congr (rtb : RedisTokenBucket) (st1 st2 : Store) (ip : String) (now : ℤ)
    (hrf : st1.readFail = st2.readFail)
    (h1 : st1.data (tokensKey ip) = st2.data (tokensKey ip))
    (h2 : st1.data (lastUpdatedKey ip) = st2.data (lastUpdatedKey ip)) :
    refilled rtb st1 ip now = refilled rtb st2 ip now := by
  simp only [refilled, readTokens, readLastUpdated, Store.getFloat, Store.getInt, Store.getRaw,
    hrf, h1, h2]

lemma allowRequest_fst_congr (rtb : RedisTokenBucket) (st1 st2 : Store) (ip : String) (now : ℤ)
    (hrf : st1.readFail = st2.readFail) (hex : st1.execFail = st2.execFail)
    (h1 : st1.data (tokensKey ip) = st2.data (tokensKey ip))
    (h2 : st1.data (lastUpdatedKey ip) = st2.data (lastUpdatedKey ip)) :
    (AllowRequest rtb st1 ip now).1 = (AllowRequest rtb st2 ip now).1 := by
  unfold AllowRequest
  rw [refilled_congr rtb st1 st2 ip now hrf h1 h2, hex]
  split_ifs <;> rfl

/-- Invariant of repeated same-second calls on a fresh identifier with an
integral capacity `C`: after `n ≤ C` calls the connection flags are intact
and the next refill computation yields `C - n` tokens. -/
lemma callSeq_spec (rtb : RedisTokenBucket) (C : ℕ) (hcap : rtb.capacity = (C : ℚ))
    (ht : 0 < rtb.ttl) (ip : String) (now : ℤ) :
    ∀ n, n ≤ C →
      (callSeq rtb ip now n).readFail = false ∧
      (callSeq rtb ip now n).execFail = false ∧
      refilled rtb (callSeq rtb ip now n) ip now = (C : ℚ) - n := by
  intro n
  induction n with
  | zero =>
    intro _
    refine ⟨rfl, rfl, ?_⟩
    simp [callSeq, refilled, readTokens, readLastUpdated, Store.getFloat, Store.getInt,
      Store.getRaw, Store.fresh, hcap]
  | succ n ih =>
    intro hn
    obtain ⟨hrf, hex, href⟩ := ih (Nat.le_of_succ_le hn)
    have hcast : (n : ℚ) + 1 ≤ (C : ℚ) := by exact_mod_cast hn
    have h1 : (1 : ℚ) ≤ refilled rtb (callSeq rtb ip now n) ip now := by
      rw [href]; linarith
    have hlive : now < now + rtb.ttl := by omega
    have hdT := allowRequest_data_tokensKey rtb (callSeq rtb ip now n) ip now h1 hex
    have hdL := allowRequest_data_lastUpdatedKey rtb (callSeq rtb ip now n) ip now h1 hex
    have hrf' : ((AllowRequest rtb (callSeq rtb ip now n) ip now).2).readFail = false := by
      rw [allowRequest_snd_readFail]; exact hrf
    refine ⟨?_, ?_, ?_⟩
    · simp only [callSeq]; exact hrf'
    · simp only [callSeq, allowRequest_snd_execFail]; exact hex
    · have hrt : readTokens rtb (callSeq rtb ip now (n + 1)) ip now
          = refilled rtb (callSeq rtb ip now n) ip now - 1 := by
        simp [callSeq, readTokens, Store.getFloat, Store.getRaw, hrf', hdT,
          Entry.isLive, hlive, rvalToFloat]
      have hru : readLastUpdated (callSeq rtb ip now (n + 1)) ip now = now := by
        simp [callSeq, readLastUpdated, Store.getInt, Store.getRaw, hrf', hdL,
          Entry.isLive, hlive, rvalToInt]
      have hle : (C : ℚ) - (n : ℚ) - 1 ≤ rtb.capacity := by
        rw [hcap]
        have : (0 : ℚ) ≤ (n : ℚ) := Nat.cast_nonneg n
        linarith
      rw [refilled, hrt, hru, href, sub_self, Int.cast_zero, zero_mul, add_zero,
        min_eq_right hle]
      push_cast
      ring

/-! The claims. -/

/-- C1: For every identifier and every store state, when the atomic commit
is able to succeed, `AllowRequest` allows the request if and only if
`refilled = min(capacity, tokens + (now - lastUpdated) * refillRate)` is at
least 1.  A negative elapsed time (clock moved backward) is not
special-cased and propagates into `refilled`: the equivalence is
quantified over every stored `last_updated`, including ones in the future,
and the witness instantiates it at such a store. -/
theorem allowRequest_allowed_iff_refilled_ge_one (rtb : RedisTokenBucket) (st : Store)
    (ip : String) (now : ℤ) (hex : st.execFail = false) :
    (AllowRequest rtb st ip now).1 = true ↔ 1 ≤ refilled rtb st ip now := by
  rw [allowRequest_fst_true_iff]
  simp [hex]

/-- C1 witness: at time 100 with `last_updated = 110` (clock skew), the
stored 5 tokens refill to `min(3, 5 + (-10)·1) = -5 < 1`, and the request
is not allowed. -/
theorem allowRequest_allowed_iff_refilled_ge_one_witness :
    stClockBack.execFail = false ∧
      ((AllowRequest ⟨3, 1, 10⟩ stClockBack "a" 100).1 = true ↔
        1 ≤ refilled ⟨3, 1, 10⟩ stClockBack "a" 100) :=
  ⟨rfl, allowRequest_allowed_iff_refilled_ge_one ⟨3, 1, 10⟩ stClockBack "a" 100 rfl⟩

/-- C2: on an allowed request `AllowRequest` commits
`tokens = refilled - 1` and `last_updated = now` as one atomic batch, each
key expiring at `now + ttl`; and whenever that commit fails it returns not
allowed and leaves the store untouched, so a failed write never grants
access. -/
theorem allowRequest_commit_on_allow (rtb : RedisTokenBucket) (st : Store) (ip : String)
    (now : ℤ) (h : 1 ≤ refilled rtb st ip now) :
    (st.execFail = false →
      (AllowRequest rtb st ip now).1 = true ∧
      ((AllowRequest rtb st ip now).2).data (tokensKey ip) =
        some ⟨.num (refilled rtb st ip now - 1), some (now + rtb.ttl)⟩ ∧
      ((AllowRequest rtb st ip now).2).data (lastUpdatedKey ip) =
        some ⟨.int now, some (now + rtb.ttl)⟩) ∧
    (st.execFail = true → AllowRequest rtb st ip now = (false, st)) := by
  refine ⟨fun hex => ⟨?_, ?_, ?_⟩, fun hex => allowRequest_of_execFail rtb st ip now hex⟩
  · exact (allowRequest_fst_true_iff rtb st ip now).mpr ⟨h, hex⟩
  · exact allowRequest_data_tokensKey rtb st ip now h hex
  · exact allowRequest_data_lastUpdatedKey rtb st ip now h hex

/-- C2 witness: a fresh identifier with capacity 3 yields `refilled = 3`;
the commit writes 2 tokens and the timestamp, both expiring at `0 + 10`. -/
theorem allowRequest_commit_on_allow_witness :
    (1 ≤ refilled ⟨3, 1, 10⟩ Store.fresh "a" 0) ∧
    ((Store.fresh.execFail = false →
      (AllowRequest ⟨3, 1, 10⟩ Store.fresh "a" 0).1 = true ∧
      ((AllowRequest ⟨3, 1, 10⟩ Store.fresh "a" 0).2).data (tokensKey "a") =
        some ⟨.num (refilled ⟨3, 1, 10⟩ Store.fresh "a" 0 - 1),
          some (0 + (⟨3, 1, 10⟩ : RedisTokenBucket).ttl)⟩ ∧
      ((AllowRequest ⟨3, 1, 10⟩ Store.fresh "a" 0).2).data (lastUpdatedKey "a") =
        some ⟨.int 0, some (0 + (⟨3, 1, 10⟩ : RedisTokenBucket).ttl)⟩) ∧
    (Store.fresh.execFail = true →
      AllowRequest ⟨3, 1, 10⟩ Store.fresh "a" 0 = (false, Store.fresh))) := by
  have hdis : (1 : ℚ) ≤ refilled ⟨3, 1, 10⟩ Store.fresh "a" 0 := by
    simp [refilled, readTokens, readLastUpdated, Store.getFloat, Store.getInt, Store.getRaw,
      Store.fresh]
  exact ⟨hdis, allowRequest_commit_on_allow ⟨3, 1, 10⟩ Store.fresh "a" 0 hdis⟩

/-- C3: on a denied request (`refilled < 1`) `AllowRequest` performs no
store write at all: the resulting store is the input store, so both the
token count and the `last_updated` timestamp are unchanged and the refill
clock is not reset. -/
theorem allowRequest_denied_no_write (rtb : RedisTokenBucket) (st : Store) (ip : String)
    (now : ℤ) (h : refilled rtb st ip now < 1) :
    AllowRequest rtb st ip now = (false, st) :=
  allowRequest_of_denied rtb st ip now h

/-- C3 witness: a drained bucket (0 tokens, just updated) is denied and
the store comes back unchanged. -/
theorem allowRequest_denied_no_write_witness :
    (refilled ⟨3, 1, 10⟩ stDrained "a" 100 < 1) ∧
    AllowRequest ⟨3, 1, 10⟩ stDrained "a" 100 = (false, stDrained) := by
  have hdis : refilled ⟨3, 1, 10⟩ stDrained "a" 100 < 1 := by
    simp [refilled, readTokens, readLastUpdated, Store.getFloat, Store.getInt, Store.getRaw,
      stDrained, rvalToFloat, rvalToInt, Entry.isLive, tokensKey, lastUpdatedKey, getIPKey]
  exact ⟨hdis, allowRequest_denied_no_write ⟨3, 1, 10⟩ stDrained "a" 100 hdis⟩

/-- C4: when the stored token value is absent, unreadable (store read
failure), or a malformed non-numeric string, the read defaults to
`capacity` (full bucket); when the stored `last_updated` is absent or
unreadable it defaults to the current time.  The read phase is a total
function into defaults: no read failure crashes the limiter or propagates
as an error. -/
theorem allowRequest_read_defaults (rtb : RedisTokenBucket) (st : Store) (ip : String)
    (now : ℤ) :
    ((st.data (tokensKey ip) = none ∨ st.readFail = true ∨
        (∃ e s, st.data (tokensKey ip) = some e ∧ e.val = RVal.str s ∧
          parseGoFloat s = none)) →
      readTokens rtb st ip now = rtb.capacity) ∧
    ((st.data (lastUpdatedKey ip) = none ∨ st.readFail = true) →
      readLastUpdated st ip now = now) := by
  constructor
  · rintro (hd | hrf | ⟨e, s, hd, hv, hp⟩)
    · cases hrf2 : st.readFail <;>
        simp [readTokens, Store.getFloat, Store.getRaw, hd, hrf2]
    · simp [readTokens, Store.getFloat, Store.getRaw, hrf]
    · cases hrf2 : st.readFail
      · cases hl : e.isLive now <;>
          simp [readTokens, Store.getFloat, Store.getRaw, hd, hv, hl, hrf2, rvalToFloat, hp]
      · simp [readTokens, Store.getFloat, Store.getRaw, hrf2]
  · rintro (hd | hrf)
    · cases hrf2 : st.readFail <;>
        simp [readLastUpdated, Store.getInt, Store.getRaw, hd, hrf2]
    · simp [readLastUpdated, Store.getInt, Store.getRaw, hrf]

/-- C4 witness: a non-numeric token value (`"banana"`) defaults to the full
capacity 3, and an absent `last_updated` defaults to the current time 5. -/
theorem allowRequest_read_defaults_witness :
    readTokens ⟨3, 1, 10⟩ stMalformed "a" 5 = (3 : ℚ) ∧
    readLastUpdated stMalformed "a" 5 = 5 := by
  refine ⟨(allowRequest_read_defaults ⟨3, 1, 10⟩ stMalformed "a" 5).1
      (Or.inr (Or.inr ⟨⟨.str "banana", none⟩, "banana", ?_, rfl, rfl⟩)),
    (allowRequest_read_defaults ⟨3, 1, 10⟩ stMalformed "a" 5).2 (Or.inl ?_)⟩
  · simp [stMalformed]
  · simp [stMalformed, tokensKey, lastUpdatedKey, getIPKey]

/-- C5: after every successful allow-and-commit, the token count written
to the store is `refilled - 1` and lies in `[0, capacity)`: never negative
and never reaching the capacity. -/
theorem allowRequest_committed_tokens_in_range (rtb : RedisTokenBucket) (st : Store)
    (ip : String) (now : ℤ) (h : (AllowRequest rtb st ip now).1 = true) :
    ((AllowRequest rtb st ip now).2).data (tokensKey ip) =
      some ⟨.num (refilled rtb st ip now - 1), some (now + rtb.ttl)⟩ ∧
    0 ≤ refilled rtb st ip now - 1 ∧
    refilled rtb st ip now - 1 < rtb.capacity := by
  obtain ⟨h1, hex⟩ := (allowRequest_fst_true_iff rtb st ip now).mp h
  have hcap : refilled rtb st ip now ≤ rtb.capacity := by
    rw [refilled]; exact min_le_left _ _
  exact ⟨allowRequest_data_tokensKey rtb st ip now h1 hex, by linarith, by linarith⟩

/-- C5 witness: the first allowed call of a fresh capacity-3 bucket writes
2 tokens, and `2 ∈ [0, 3)`. -/
theorem allowRequest_committed_tokens_in_range_witness :
    (AllowRequest ⟨3, 1, 10⟩ Store.fresh "a" 0).1 = true ∧
    (((AllowRequest ⟨3, 1, 10⟩ Store.fresh "a" 0).2).data (tokensKey "a") =
      some ⟨.num (refilled ⟨3, 1, 10⟩ Store.fresh "a" 0 - 1),
        some (0 + (⟨3, 1, 10⟩ : RedisTokenBucket).ttl)⟩ ∧
    0 ≤ refilled ⟨3, 1, 10⟩ Store.fresh "a" 0 - 1 ∧
    refilled ⟨3, 1, 10⟩ Store.fresh "a" 0 - 1 <
      (⟨3, 1, 10⟩ : RedisTokenBucket).capacity) := by
  have hdis : (AllowRequest ⟨3, 1, 10⟩ Store.fresh "a" 0).1 = true := by
    simp [AllowRequest, refilled, readTokens, readLastUpdated, Store.getFloat, Store.getInt,
      Store.getRaw, Store.fresh]
  exact ⟨hdis, allowRequest_committed_tokens_in_range ⟨3, 1, 10⟩ Store.fresh "a" 0 hdis⟩

/-- C6: for every integral capacity `C`, a fresh identifier's first `C`
calls (all in the same second, store healthy, positive TTL) return `true`
and the `(C+1)`-th call returns `false`. -/
theorem allowRequest_fresh_first_capacity_calls (C : ℕ) (r : ℚ) (t : ℤ) (ht : 0 < t)
    (ip : String) (now : ℤ) :
    (∀ n, n < C →
      (AllowRequest ⟨(C : ℚ), r, t⟩ (callSeq ⟨(C : ℚ), r, t⟩ ip now n) ip now).1 = true) ∧
    (AllowRequest ⟨(C : ℚ), r, t⟩ (callSeq ⟨(C : ℚ), r, t⟩ ip now C) ip now).1 = false := by
  constructor
  · intro n hn
    obtain ⟨-, hex, href⟩ := callSeq_spec ⟨(C : ℚ), r, t⟩ C rfl ht ip now n (Nat.le_of_lt hn)
    refine (allowRequest_fst_true_iff _ _ _ _).mpr ⟨?_, hex⟩
    rw [href]
    have : (n : ℚ) + 1 ≤ (C : ℚ) := by exact_mod_cast hn
    linarith
  · obtain ⟨-, -, href⟩ := callSeq_spec ⟨(C : ℚ), r, t⟩ C rfl ht ip now C le_rfl
    have hlt : refilled ⟨(C : ℚ), r, t⟩ (callSeq ⟨(C : ℚ), r, t⟩ ip now C) ip now < 1 := by
      rw [href]; simp
    rw [allowRequest_of_denied _ _ _ _ hlt]

/-- C6 witness: capacity 3, refill rate 1, TTL 10: calls 1-3 return true,
call 4 returns false. -/
theorem allowRequest_fresh_first_capacity_calls_witness :
    (0 : ℤ) < 10 ∧
    ((∀ n, n < 3 →
      (AllowRequest ⟨((3 : ℕ) : ℚ), 1, 10⟩ (callSeq ⟨((3 : ℕ) : ℚ), 1, 10⟩ "a" 0 n)
        "a" 0).1 = true) ∧
    (AllowRequest ⟨((3 : ℕ) : ℚ), 1, 10⟩ (callSeq ⟨((3 : ℕ) : ℚ), 1, 10⟩ "a" 0 3)
      "a" 0).1 = false) :=
  ⟨by decide, allowRequest_fresh_first_capacity_calls 3 1 10 (by decide) "a" 0⟩

/-- C7 counterexample: the claim says a caller of `AllowRequest` can
distinguish "rate limit denied" from "store unavailable".  It cannot:
`AllowRequest` returns only a boolean.  With capacity 3 at time 100, an
otherwise-allowable call (`refilled = 3 ≥ 1`) whose transactional write
fails returns `false`, and a genuinely denied call (`refilled = 0 < 1`)
also returns `false` — identical observable results. -/
theorem allowRequest_write_failure_indistinguishable :
    (1 ≤ refilled ⟨3, 1, 10⟩ stWriteFail "a" 100) ∧
    (AllowRequest ⟨3, 1, 10⟩ stWriteFail "a" 100).1 = false ∧
    (refilled ⟨3, 1, 10⟩ stDrained "a" 100 < 1) ∧
    (AllowRequest ⟨3, 1, 10⟩ stDrained "a" 100).1 = false := by
  refine ⟨?_, ?_, ?_, ?_⟩ <;>
    simp [AllowRequest, refilled, readTokens, readLastUpdated, Store.getFloat, Store.getInt,
      Store.getRaw, stWriteFail, stDrained, rvalToFloat, rvalToInt, Entry.isLive,
      tokensKey, lastUpdatedKey, getIPKey, show ¬((1 : ℚ) ≤ 0) by norm_num]

/-- C7 as amended: a store write failure during an otherwise-allowable
call makes `AllowRequest` return `false` with the store unchanged — the
same boolean a denial produces, so the caller cannot tell the two apart
from the return value (the difference appears only in the process log). -/
theorem allowRequest_write_failure_returns_false (rtb : RedisTokenBucket) (st : Store)
    (ip : String) (now : ℤ) (h : st.execFail = true) :
    AllowRequest rtb st ip now = (false, st) :=
  allowRequest_of_execFail rtb st ip now h

/-- C7 amended witness: with failing writes, the call on a full fresh
bucket returns `false` and writes nothing. -/
theorem allowRequest_write_failure_returns_false_witness :
    stWriteFail.execFail = true ∧
    AllowRequest ⟨3, 1, 10⟩ stWriteFail "a" 100 = (false, stWriteFail) :=
  ⟨rfl, allowRequest_write_failure_returns_false ⟨3, 1, 10⟩ stWriteFail "a" 100 rfl⟩

/-- C8 counterexample: the claim says invalid configuration (non-positive
capacity or ttl) is rejected at construction time.  It is not:
`NewRedisTokenBucket` performs no validation and happily returns a limiter
carrying capacity -1 and ttl -7. -/
theorem newRedisTokenBucket_accepts_invalid_config :
    NewRedisTokenBucket (-1) 1 (-7) =
      { capacity := -1, refillRate := 1, ttl := -7 } :=
  rfl

/-- C8 as amended: `NewRedisTokenBucket` accepts every configuration,
including non-positive capacity and ttl, and always returns a limiter
carrying exactly the given values; no construction-time rejection exists. -/
theorem newRedisTokenBucket_no_validation (c r : ℚ) (t : ℤ) :
    NewRedisTokenBucket c r t = { capacity := c, refillRate := r, ttl := t } :=
  rfl

/-- C9: the two store keys used by `AllowRequest` for an identifier are
exactly `rate_limit:ip:<identifier>:tokens` and
`rate_limit:ip:<identifier>:last_updated`: writes touch no other key, and
the decision depends on no other key. -/
theorem allowRequest_store_keys (ip : String) :
    tokensKey ip = "rate_limit:ip:" ++ ip ++ ":tokens" ∧
    lastUpdatedKey ip = "rate_limit:ip:" ++ ip ++ ":last_updated" ∧
    (∀ (rtb : RedisTokenBucket) (st : Store) (now : ℤ) (k : String),
      k ≠ tokensKey ip → k ≠ lastUpdatedKey ip →
      ((AllowRequest rtb st ip now).2).data k = st.data k) ∧
    (∀ (rtb : RedisTokenBucket) (st1 st2 : Store) (now : ℤ),
      st1.readFail = st2.readFail → st1.execFail = st2.execFail →
      st1.data (tokensKey ip) = st2.data (tokensKey ip) →
      st1.data (lastUpdatedKey ip) = st2.data (lastUpdatedKey ip) →
      (AllowRequest rtb st1 ip now).1 = (AllowRequest rtb st2 ip now).1) := by
  refine ⟨rfl, rfl, ?_, ?_⟩
  · intro rtb st now k hk1 hk2
    exact allowRequest_data_other rtb st ip now k hk1 hk2
  · intro rtb st1 st2 now hrf hex h1 h2
    exact allowRequest_fst_congr rtb st1 st2 ip now hrf hex h1 h2

/-- C9 witness: the concrete key names for identifier `"a"`, and a call
leaving an unrelated key untouched. -/
theorem allowRequest_store_keys_witness :
    tokensKey "a" = "rate_limit:ip:" ++ "a" ++ ":tokens" ∧
    ((AllowRequest ⟨3, 1, 10⟩ Store.fresh "a" 0).2).data "other" =
      Store.fresh.data "other" :=
  ⟨(allowRequest_store_keys "a").1,
   (allowRequest_store_keys "a").2.2.1 ⟨3, 1, 10⟩ Store.fresh 0 "other"
     (by decide) (by decide)⟩

/-- C10: if the configured capacity is strictly below 1, every request is
denied: the `min(capacity, ...)` clamp keeps `refilled` below 1 for every
identifier, store state and time, including the first call of a fresh
identifier. -/
theorem allowRequest_capacity_lt_one_always_denies (rtb : RedisTokenBucket) (st : Store)
    (ip : String) (now : ℤ) (h : rtb.capacity < 1) :
    (AllowRequest rtb st ip now).1 = false := by
  have hle : refilled rtb st ip now ≤ rtb.capacity := by
    rw [refilled]; exact min_le_left _ _
  rw [allowRequest_of_denied rtb st ip now (lt_of_le_of_lt hle h)]

/-- C10 witness: with capacity 0 even the very first request of a fresh
identifier is denied. -/
theorem allowRequest_capacity_lt_one_always_denies_witness :
    (⟨0, 1, 10⟩ : RedisTokenBucket).capacity < 1 ∧
    (AllowRequest ⟨0, 1, 10⟩ Store.fresh "a" 0).1 = false :=
  ⟨zero_lt_one,
   allowRequest_capacity_lt_one_always_denies ⟨0, 1, 10⟩ Store.fresh "a" 0 zero_lt_one⟩

end Limiter
